import Mathlib

/-!
Verification development for the replicate-ui server
(`src/server-js/index.js`).  The JavaScript functions and route
pipelines are shallowly embedded as executable Lean definitions:
floating-point durations become rationals, the Anthropic API call
becomes an injectable operation `Nat → Except ApiError α`, the model
responses of the refinement loop become injectable oracle functions,
regex extraction becomes explicit left-to-right lazy scanning over
character lists, and the in-memory task record becomes a `TaskRecord`
structure mutated in program order.
-/

namespace ReplicateUI

/-! ### Generic string scanning

JavaScript regex operations used by the server are all of two shapes:
a lazy match `open[\s\S]*?close` (optionally case-insensitive) and a
global replacement of a list of literal alternatives by the empty
string.  Both scan left to right, trying the earliest start position
first; for the lazy middle the earliest possible end is taken.  They
are embedded below over `List Char`.  Recursions that skip over a
matched region carry a fuel argument (initialised to the text length,
which bounds the number of scan steps since every step consumes at
least one character) so that all definitions are structural and
kernel-evaluable.
-/

/-- lowerChars maps ASCII upper-case letters to lower case, the
embedding of JavaScript `toLowerCase` restricted to the ASCII
phrases the server compares against. -/
def lowerChars (cs : List Char) : List Char :=
  cs.map Char.toLower

/-- findPatIdx returns the first index of `text` at which `pat`
occurs as a prefix of the remaining text (the index of the first
occurrence of the literal `pat`), or `none`. -/
def findPatIdx (pat : List Char) : List Char → Option Nat
  | [] => if pat.isEmpty then some 0 else none
  | c :: rest =>
    if pat.isPrefixOf (c :: rest) then some 0
    else (findPatIdx pat rest).map (· + 1)

/-- containsSub tests whether the literal `pat` occurs anywhere in
`text` (the embedding of JavaScript `String.prototype.includes`). -/
def containsSub (text pat : List Char) : Bool :=
  (findPatIdx pat text).isSome

/-- lazyScan embeds the JavaScript regex `open[\s\S]*?close`: it
returns the half-open index range `(start, stop)` of the first match,
scanning start positions left to right and, at the first start
position where `openP` occurs and `closeP` occurs later, taking the
earliest such `closeP` occurrence (lazy middle). -/
def lazyScan (openP closeP : List Char) : List Char → Option (Nat × Nat)
  | [] =>
    if openP.isEmpty then
      (findPatIdx closeP []).map (fun j => (0, j + closeP.length))
    else none
  | c :: rest =>
    if openP.isPrefixOf (c :: rest) then
      match findPatIdx closeP ((c :: rest).drop openP.length) with
      | some j => some (0, openP.length + j + closeP.length)
      | none => (lazyScan openP closeP rest).map (fun p => (p.1 + 1, p.2 + 1))
    else (lazyScan openP closeP rest).map (fun p => (p.1 + 1, p.2 + 1))

/-- sliceChars extracts the half-open index range `[start, stop)` of a
character list. -/
def sliceChars (cs : List Char) (start stop : Nat) : List Char :=
  (cs.drop start).take (stop - start)

/-- stripAltsFuel is the fuelled worker for `stripAlts`; the fuel is
initialised to the text length, which bounds the number of scan steps. -/
def stripAltsFuel (alts : List (List Char)) : Nat → List Char → List Char
  | 0, text => text
  | _ + 1, [] => []
  | fuel + 1, c :: rest =>
    match alts.find? (fun a => !a.isEmpty && a.isPrefixOf (c :: rest)) with
    | some a => stripAltsFuel alts fuel ((c :: rest).drop a.length)
    | none => c :: stripAltsFuel alts fuel rest

/-- stripAlts embeds a JavaScript global replacement of an ordered
alternation of literals by the empty string, e.g.
`.replace(/```html|```/g, '')`: at each position the first matching
alternative is deleted and scanning resumes after it. -/
def stripAlts (alts : List (List Char)) (text : List Char) : List Char :=
  stripAltsFuel alts text.length text

/-- removeLazyAllFuel is the fuelled worker for `removeLazyAll`. -/
def removeLazyAllFuel (openP closeP : List Char) : Nat → List Char → List Char
  | 0, text => text
  | _ + 1, [] => []
  | fuel + 1, c :: rest =>
    if openP.isPrefixOf (lowerChars (c :: rest)) then
      match findPatIdx closeP ((lowerChars (c :: rest)).drop openP.length) with
      | some j => removeLazyAllFuel openP closeP fuel
          ((c :: rest).drop (openP.length + j + closeP.length))
      | none => c :: removeLazyAllFuel openP closeP fuel rest
    else c :: removeLazyAllFuel openP closeP fuel rest

/-- removeLazyAll embeds a JavaScript global case-insensitive
replacement `.replace(/open[\s\S]*?close/gi, '')`: every lazy match is
deleted, scanning resuming after each deleted match.  The patterns are
supplied lower-cased and compared against the lower-cased text while
deletion happens on the original text. -/
def removeLazyAll (openP closeP : List Char) (text : List Char) : List Char :=
  removeLazyAllFuel openP closeP text.length text

/-- trimChars removes leading and trailing whitespace, the embedding
of JavaScript `String.prototype.trim`. -/
def trimChars (cs : List Char) : List Char :=
  ((cs.dropWhile Char.isWhitespace).reverse.dropWhile Char.isWhitespace).reverse

/-! ### Frame sampler (`extractFramesFromVideo`, index.js lines 66-97)

Only the timestamp computation is embedded (the actual ffmpeg
screenshot calls are I/O).  Durations are modelled as rationals. -/

/-- sampleTimestamps computes the list of frame-extraction timestamps
of `extractFramesFromVideo` for a probed `duration`, with the
`maxFrames` and `minInterval` options (index.js lines 66-97): a
duration-dependent frame count, an even interval floored at
`minInterval`, timestamp `0` first, and every later timestamp clamped
to `duration - 0.1`. -/
def sampleTimestamps (duration : ℚ) (maxFrames : Nat) (minInterval : ℚ) : List ℚ :=
  let frameCount : Nat :=
    if duration ≤ 5 then min (Int.toNat ⌈duration / (3 / 10)⌉) maxFrames
    else if duration ≤ 15 then min (Int.toNat ⌈duration / (1 / 2)⌉) maxFrames
    else maxFrames
  let interval : ℚ := max (duration / frameCount) minInterval
  0 :: (List.range (frameCount - 1)).map
    (fun i => min (((i + 1 : Nat) : ℚ) * interval) (duration - 1 / 10))

/-! ### Model client with retry (`callClaudeWithRetry`, index.js lines 210-244)

The Anthropic API call is injectable: the operation is a function from
the attempt number (the value of `retryCount` at call time) to either
a success value or a thrown error.  The embedding records, besides the
outcome, how many times the operation was invoked and the backoff
delays slept (in milliseconds).  When `maxRetries = 0` the JavaScript
function throws the still-undefined `lastError`; the outcome error
type is therefore `Option ApiError`, with `none` standing for that
undefined value. -/

/-- ApiError models the errors thrown by `anthropic.messages.create`:
`status` is the optional HTTP status (`error.status`, absent fields
compare as JavaScript `undefined`) and `errType` the optional
`error.error.type`. -/
structure ApiError where
  status : Option Int
  errType : Option String
deriving DecidableEq

/-- isOverloaded embeds `error.status === 529 || (error.error &&
error.error.type === 'overloaded_error')`. -/
def isOverloaded (e : ApiError) : Bool :=
  e.status == some 529 || e.errType == some "overloaded_error"

/-- isRateLimited embeds `error.status === 429`. -/
def isRateLimited (e : ApiError) : Bool :=
  e.status == some 429

/-- isServerError embeds `error.status >= 500` (false when `status` is
undefined, as in JavaScript). -/
def isServerError (e : ApiError) : Bool :=
  match e.status with
  | some s => decide (500 ≤ s)
  | none => false

/-- isRetryable is the disjunction guarding the retry branch of
`callClaudeWithRetry`. -/
def isRetryable (e : ApiError) : Bool :=
  isOverloaded e || isRateLimited e || isServerError e

/-- RetryTrace is the observable behaviour of one `callClaudeWithRetry`
invocation: the returned value or thrown error, the number of times
the wrapped operation was invoked, and the backoff delays slept. -/
structure RetryTrace (α : Type) where
  outcome : Except (Option ApiError) α
  calls : Nat
  delays : List Nat

/-- callClaudeWithRetryAux is the while loop of `callClaudeWithRetry`,
structurally recursing on `remaining = maxRetries - retryCount`. -/
def callClaudeWithRetryAux (op : Nat → Except ApiError α) (initialDelay : Nat) :
    Nat → Nat → Option ApiError → RetryTrace α
  | 0, _, lastError => ⟨Except.error lastError, 0, []⟩
  | remaining + 1, retryCount, _ =>
    match op retryCount with
    | Except.ok v => ⟨Except.ok v, 1, []⟩
    | Except.error e =>
      if isRetryable e then
        let rest := callClaudeWithRetryAux op initialDelay remaining (retryCount + 1) (some e)
        ⟨rest.outcome, rest.calls + 1, initialDelay * 2 ^ retryCount :: rest.delays⟩
      else ⟨Except.error (some e), 1, []⟩

/-- callClaudeWithRetry embeds `callClaudeWithRetry(anthropic, options,
maxRetries, initialDelay)` with the API call abstracted into the
injectable `op` (index.js lines 210-244).  The call sites use the
default arguments `maxRetries = 3`, `initialDelay = 2000`. -/
def callClaudeWithRetry (op : Nat → Except ApiError α)
    (maxRetries : Nat := 3) (initialDelay : Nat := 2000) : RetryTrace α :=
  callClaudeWithRetryAux op initialDelay maxRetries 0 none

/-! ### Refinement loop (`/analyze-refine`, index.js lines 874-997)

The two model calls of each iteration are injectable oracles:
`analyze ic html` is the critique text returned for iteration number
`ic` (0-based `iterationCount`) on the current HTML, and
`improve ic analysisText` is the raw improved-HTML response.  The
embedding also records the number of loop-body executions and the
sequence of values written to the task's `progress` field, in program
order. -/

/-- matchPred embeds the match predicate of the refinement loop
(index.js lines 941-943): case-insensitive substring containment of
one of three fixed phrases in the critique text. -/
def matchPred (analysisText : String) : Bool :=
  let t := lowerChars analysisText.data
  containsSub t "no further improvements".data ||
  containsSub t "95%+ accurate".data ||
  containsSub t "already very good match".data

/-- stripMdFences embeds `.replace(/```html|```/g, '')`, the markdown
code-fence cleanup applied to model responses. -/
def stripMdFences (s : String) : String :=
  String.mk (stripAlts ["```html".data, "```".data] s.data)

/-- RefineResult is the observable state at exit of the refinement
loop: the final `currentHtml`, `iterationCount` and `isMatch`
variables, the number of loop-body executions, and the values written
to the task record's `progress` field by the loop, in program order. -/
structure RefineResult where
  currentHtml : String
  iterationCount : Nat
  isMatch : Bool
  bodyRuns : Nat
  progressWrites : List Nat
deriving DecidableEq

/-- refineGoFuel is the while loop of `/analyze-refine` (index.js
lines 878-997), structurally recursing on a fuel initialised to
`maxIterations` (the loop continues at most when `iterationCount <
maxIterations - 1`, and `iterationCount` grows by one per
continuation, so that fuel suffices). -/
def refineGoFuel (analyze improve : Nat → String → String) (maxIterations : Nat) :
    Nat → Nat → String → Nat → List Nat → RefineResult
  | 0, iterationCount, currentHtml, runs, writes =>
    ⟨currentHtml, iterationCount, false, runs, writes⟩
  | fuel + 1, iterationCount, currentHtml, runs, writes =>
    if iterationCount < maxIterations then
      let progressBase := 10 + iterationCount * 30
      let analysisText := analyze iterationCount currentHtml
      let writes1 := writes ++ [progressBase, progressBase + 10]
      if matchPred analysisText then
        ⟨currentHtml, iterationCount, true, runs + 1, writes1 ++ [100]⟩
      else if maxIterations - 1 ≤ iterationCount then
        ⟨currentHtml, iterationCount, false, runs + 1, writes1⟩
      else
        refineGoFuel analyze improve maxIterations fuel (iterationCount + 1)
          (stripMdFences (improve iterationCount analysisText)) (runs + 1)
          (writes1 ++ [progressBase + 20, progressBase + 30])
    else ⟨currentHtml, iterationCount, false, runs, writes⟩

/-- runRefineLoop runs the `/analyze-refine` refinement loop from its
initial state (`currentHtml = htmlContent`, `iterationCount = 0`,
`maxIterations = 3`). -/
def runRefineLoop (analyze improve : Nat → String → String) (htmlContent : String) :
    RefineResult :=
  refineGoFuel analyze improve 3 3 0 htmlContent 0 []

/-- analyzeRefineProgressWrites is the full sequence of values written
to the `/analyze-refine` task's `progress` field while it is
processing: 0 at task creation (line 842), 10 before the loop (line
868), the loop's writes, and 100 after the loop (line 1001). -/
def analyzeRefineProgressWrites (analyze improve : Nat → String → String)
    (htmlContent : String) : List Nat :=
  0 :: 10 :: ((runRefineLoop analyze improve htmlContent).progressWrites ++ [100])

/-! ### Response post-processing (`/generate-html`, index.js lines 547-671)

The extraction regexes, the tag cleanup and the fixed boilerplate
document template are embedded.  The template literal is split at its
two interpolation points (the conditional script tag in the head and
the cleaned fragment inside `<body>`). -/

/-- completeHtmlPartA is the boilerplate document template up to the
conditional script-tag interpolation (index.js lines 597-604). -/
def completeHtmlPartA : String :=
  "<!DOCTYPE html>\n<html lang=\"en\">\n<head>\n    <meta charset=\"UTF-8\">\n    <meta name=\"viewport\" content=\"width=device-width, initial-scale=1.0\">\n    <title>UI Replication</title>\n    <link rel=\"stylesheet\" href=\"https://cdn.jsdelivr.net/npm/tailwindcss@2.2.19/dist/tailwind.min.css\">\n    <link rel=\"stylesheet\" href=\"styles.css\">\n    "

/-- completeHtmlPartB is the boilerplate document template between the
script-tag interpolation and the body-fragment interpolation: the
fixed responsive style block, the end of the head and the opening of
the body (index.js lines 605-669). -/
def completeHtmlPartB : String :=
  "\n    <style>\n        /* Base responsive styles */\n        *, *::before, *::after \x7b\n            box-sizing: border-box;\n        \x7d\n        \n        :root \x7b\n            /* Define base font sizes for different screen sizes */\n            font-size: 16px;\n        \x7d\n        \n        body \x7b\n            margin: 0;\n            padding: 0;\n            font-family: system-ui, -apple-system, BlinkMacSystemFont, \x27Segoe UI\x27, Roboto, Oxygen, Ubuntu, Cantarell, \x27Open Sans\x27, \x27Helvetica Neue\x27, sans-serif;\n            line-height: 1.5;\n        \x7d\n        \n        /* Container for responsive layouts */\n        .container \x7b\n            width: 100%;\n            max-width: 1200px;\n            margin: 0 auto;\n            padding: 0 15px;\n        \x7d\n        \n        /* Responsive typography */\n        h1 \x7b font-size: clamp(1.75rem, 4vw, 2.5rem); \x7d\n        h2 \x7b font-size: clamp(1.5rem, 3vw, 2rem); \x7d\n        h3 \x7b font-size: clamp(1.25rem, 2.5vw, 1.75rem); \x7d\n        h4 \x7b font-size: clamp(1.125rem, 2vw, 1.5rem); \x7d\n        p, li \x7b font-size: clamp(0.875rem, 1.5vw, 1rem); \x7d\n        \n        /* Responsive grid system */\n        .responsive-grid \x7b\n            display: grid;\n            grid-template-columns: repeat(auto-fill, minmax(250px, 1fr));\n            gap: 1rem;\n        \x7d\n        \n        /* Mobile devices */\n        @media (max-width: 640px) \x7b\n            .hide-on-mobile \x7b\n                display: none !important;\n            \x7d\n        \x7d\n        \n        /* Tablet devices */\n        @media (min-width: 641px) and (max-width: 1024px) \x7b\n            .hide-on-tablet \x7b\n                display: none !important;\n            \x7d\n        \x7d\n        \n        /* Desktop devices */\n        @media (min-width: 1025px) \x7b\n            .hide-on-desktop \x7b\n                display: none !important;\n            \x7d\n        \x7d\n    </style>\n</head>\n<body>\n    "

/-- completeHtmlPartC is the boilerplate document template after the
body-fragment interpolation (index.js lines 669-671). -/
def completeHtmlPartC : String :=
  "\n</body>\n</html>"

/-- lazyMatchCI runs `lazyScan` for a case-insensitive regex
(`/open[\s\S]*?close/i`): indices are found on the lower-cased text
and the matched slice is taken from the original text, as a JavaScript
regex match does. -/
def lazyMatchCI (openS closeS : String) (text : List Char) : Option (List Char) :=
  (lazyScan (lowerChars openS.data) (lowerChars closeS.data) (lowerChars text)).map
    (fun p => sliceChars text p.1 p.2)

/-- lazyMatchCS runs `lazyScan` for a case-sensitive regex, returning
the full matched slice. -/
def lazyMatchCS (openS closeS : String) (text : List Char) : Option (List Char) :=
  (lazyScan openS.data closeS.data text).map (fun p => sliceChars text p.1 p.2)

/-- lazyMatchGroupCS runs `lazyScan` for a case-sensitive regex
`open([\s\S]*?)close` and returns the first capture group (the slice
strictly between the two delimiters). -/
def lazyMatchGroupCS (openS closeS : String) (text : List Char) : Option (List Char) :=
  (lazyScan openS.data closeS.data text).map
    (fun p => sliceChars text (p.1 + openS.length) (p.2 - closeS.length))

/-- extractHtmlFragment embeds the `htmlMatch` extraction of
`/generate-html` (index.js lines 553-563): try
`/<html[\s\S]*?<\/html>/i`, then `/<body[\s\S]*?<\/body>/i`, then a
fenced ```` ```html ```` block; on a match strip code fences from
match[0] and trim it, otherwise fall back to the entire response
text unchanged. -/
def extractHtmlFragment (htmlContent : String) : String :=
  let text := htmlContent.data
  match lazyMatchCI "<html" "</html>" text with
  | some m => String.mk (trimChars (stripAlts ["```html".data, "```".data] m))
  | none =>
    match lazyMatchCI "<body" "</body>" text with
    | some m => String.mk (trimChars (stripAlts ["```html".data, "```".data] m))
    | none =>
      match lazyMatchCS "```html" "```" text with
      | some m => String.mk (trimChars (stripAlts ["```html".data, "```".data] m))
      | none => htmlContent

/-- extractStyleContent embeds the `cssMatch` extraction (index.js
lines 566-571): group 1 of `/<style>([\s\S]*?)<\/style>/` or of a
fenced css block, cleaned of css fences and trimmed; empty when
neither matches. -/
def extractStyleContent (htmlContent : String) : String :=
  let text := htmlContent.data
  match lazyMatchGroupCS "<style>" "</style>" text with
  | some g => String.mk (trimChars (stripAlts ["```css".data, "```".data] g))
  | none =>
    match lazyMatchGroupCS "```css" "```" text with
    | some g => String.mk (trimChars (stripAlts ["```css".data, "```".data] g))
    | none => ""

/-- extractScriptContent embeds the `jsMatch` extraction (index.js
lines 574-580): group 1 of `/<script>([\s\S]*?)<\/script>/` or of a
fenced javascript or js block, cleaned of js fences and trimmed; empty
when none matches. -/
def extractScriptContent (htmlContent : String) : String :=
  let text := htmlContent.data
  let clean := fun (g : List Char) =>
    String.mk (trimChars (stripAlts ["```javascript".data, "```js".data, "```".data] g))
  match lazyMatchGroupCS "<script>" "</script>" text with
  | some g => clean g
  | none =>
    match lazyMatchGroupCS "```javascript" "```" text with
    | some g => clean g
    | none =>
      match lazyMatchGroupCS "```js" "```" text with
      | some g => clean g
      | none => ""

/-- GenOutput is the observable result of the `/generate-html`
post-processing step: the extracted fragment, style and script
contents, the cleaned fragment embedded into the document, and the
assembled document. -/
structure GenOutput where
  cleanedHtmlContent : String
  styleContent : String
  scriptContent : String
  cleanHtml : String
  completeHtml : String
deriving DecidableEq

/-- postProcessGenerate embeds the post-processing of the
`/generate-html` pipeline (index.js lines 547-671): extract HTML, CSS
and JavaScript from the model response, remove style and script tags
from the fragment, and assemble the fixed boilerplate document around
it, with the deferred-script tag included exactly when the task is a
video task or script content was extracted. -/
def postProcessGenerate (isVideo : Bool) (htmlContent : String) : GenOutput :=
  let cleanedHtmlContent := extractHtmlFragment htmlContent
  let styleContent := extractStyleContent htmlContent
  let scriptContent := extractScriptContent htmlContent
  let cleanHtml := String.mk (trimChars
    (removeLazyAll "<script>".data "</script>".data
      (removeLazyAll "<style>".data "</style>".data cleanedHtmlContent.data)))
  let scriptTag :=
    if isVideo || !(scriptContent == "") then
      "<script defer src=\"script.js\"></script>"
    else ""
  { cleanedHtmlContent := cleanedHtmlContent
    styleContent := styleContent
    scriptContent := scriptContent
    cleanHtml := cleanHtml
    completeHtml :=
      completeHtmlPartA ++ scriptTag ++ completeHtmlPartB ++ cleanHtml ++ completeHtmlPartC }

/-! ### Task registry and status endpoint

The in-memory `activeTasks` map entries are embedded as `TaskRecord`
values, mutated in program order by the background pipelines and read
by `GET /task-status/:taskId` (index.js lines 779-807). -/

/-- ResultPayload is the `result` object attached to a completed
`/analyze-refine` task (index.js lines 1159-1164). -/
structure ResultPayload where
  html : String
  zipPath : String
  iterationCount : Nat
  isMatch : Bool
deriving DecidableEq

/-- TaskRecord is one entry of the `activeTasks` map. -/
structure TaskRecord where
  status : String
  progress : Nat
  message : String
  startTime : Nat
  isVideo : Bool
  iterationCount : Option Nat
  result : Option ResultPayload
deriving DecidableEq

/-- initAnalyzeRefineTask is the record installed by `/analyze-refine`
at task creation (index.js lines 840-846). -/
def initAnalyzeRefineTask (isVideo : Bool) (now : Nat) : TaskRecord :=
  { status := "processing"
    progress := 0
    message :=
      if isVideo then "Starting video analysis for refinement..."
      else "Starting image analysis for refinement..."
    startTime := now
    isVideo := isVideo
    iterationCount := none
    result := none }

/-- taskStatusView is the fixup that `GET /task-status/:taskId`
applies to the stored record before responding (index.js lines
797-801): a record carrying a result is reported (and stored) as
completed with progress 100. -/
def taskStatusView (t : TaskRecord) : TaskRecord :=
  if t.result.isSome then { t with status := "completed", progress := 100 } else t

/-- jsRound embeds JavaScript `Math.round`: round half up. -/
def jsRound (x : ℚ) : Int :=
  ⌊x + 1 / 2⌋

/-- estimatedRemainingSeconds embeds the estimated-time computation of
`GET /task-status/:taskId` (index.js lines 789-795): `null` unless
`progress > 0`, otherwise a linear extrapolation of the elapsed
milliseconds against the progress percentage. -/
def estimatedRemainingSeconds (progress : Nat) (nowMs startTimeMs : ℚ) : Option Int :=
  if 0 < progress then
    let elapsedMs := nowMs - startTimeMs
    let estimatedTotalMs := elapsedMs / (progress : ℚ) * 100
    let remainingMs := estimatedTotalMs - elapsedMs
    some (jsRound (remainingMs / 1000))
  else none

/-- mkTaskId embeds task-identifier generation, `Date.now().toString()`
(index.js lines 268, 837, 1230), as a function of the millisecond
clock reading. -/
def mkTaskId (nowMs : Nat) : String :=
  toString nowMs

/-- tasksInsert embeds `activeTasks.set(key, value)` on an association
list: replace the record of an existing key, else append. -/
def tasksInsert (m : List (String × TaskRecord)) (k : String) (v : TaskRecord) :
    List (String × TaskRecord) :=
  if m.any (fun p => p.1 == k) then
    m.map (fun p => if p.1 == k then (k, v) else p)
  else m ++ [(k, v)]

/-- analyzeRefineMarkCompleted is the post-loop completion update of
`/analyze-refine` (index.js lines 999-1002), applied to the record as
the loop left it. -/
def analyzeRefineMarkCompleted (t : TaskRecord) (iterationCount : Nat) : TaskRecord :=
  { t with
    status := "completed"
    progress := 100
    message := "Analysis and refinement complete after " ++
      toString iterationCount ++ " iterations" }

/-- analyzeRefineAttachResult is the result assignment of
`/analyze-refine` (index.js lines 1159-1164), which happens after the
completion update, on the far side of the awaited zip generation. -/
def analyzeRefineAttachResult (t : TaskRecord) (p : ResultPayload) : TaskRecord :=
  { t with result := some p }

/-- analyzeRefineCompletionStates is the program-order sequence of
task-record states from the end of the refinement loop onwards: first
the record marked completed (lines 999-1002), then the record with the
result attached (lines 1159-1164).  The `await zip.generateAsync`
between the two makes the first state observable by a concurrent
status poll. -/
def analyzeRefineCompletionStates (t : TaskRecord) (iterationCount : Nat)
    (p : ResultPayload) : List TaskRecord :=
  [analyzeRefineMarkCompleted t iterationCount,
   analyzeRefineAttachResult (analyzeRefineMarkCompleted t iterationCount) p]

/-- generateHtmlProgressWrites is the sequence of values written to a
`/generate-html` task's `progress` field while it is processing, in
program order (index.js lines 271-748), as a function of the media
kind and, for videos, the number `n` of extracted frames: 0 at
creation, 10, for videos 20 and, when more than one frame was
extracted, 40 followed by `40 + floor(20 * i / n)` for each further
frame `i = 1 .. n-1` and then 60 and 70; then 80 and finally 100. -/
def generateHtmlProgressWrites (isVideo : Bool) (n : Nat) : List Nat :=
  if isVideo then
    if 1 < n then
      [0, 10, 20, 40] ++
        (List.range (n - 1)).map (fun k => 40 + 20 * (k + 1) / n) ++
        [60, 70, 80, 100]
    else [0, 10, 20, 80, 100]
  else [0, 10, 80, 100]

/-! ## Claim theorems -/

/-- sampleTimestamps_short_form unfolds the sampler on the short-video
branch (`duration <= 5`). -/
theorem sampleTimestamps_short_form (D : ℚ) (mf : Nat) (mi : ℚ) (h : D ≤ 5) :
    sampleTimestamps D mf mi =
      0 :: (List.range (min (Int.toNat ⌈D / (3 / 10)⌉) mf - 1)).map
        (fun i => min (((i + 1 : Nat) : ℚ) *
          max (D / ((min (Int.toNat ⌈D / (3 / 10)⌉) mf : Nat) : ℚ)) mi) (D - 1 / 10)) := by
  simp only [sampleTimestamps, if_pos h]

/-- C1: for every video duration `D` with `0.1 < D ≤ 5`, frame sampling
with `maxFrames = 20` and `minInterval = 0.2` (the `/generate-html`
call-site options) produces exactly `min(ceil(D/0.3), 20)` timestamps,
the first timestamp is `0`, every timestamp is strictly below `D`, and
every non-initial timestamp is at most `D - 0.1`. -/
theorem c1_frame_sampling (D : ℚ) (h1 : 1 / 10 < D) (h2 : D ≤ 5) :
    (sampleTimestamps D 20 (1 / 5)).length = min (Int.toNat ⌈D / (3 / 10)⌉) 20 ∧
    (sampleTimestamps D 20 (1 / 5)).head? = some 0 ∧
    (∀ t ∈ sampleTimestamps D 20 (1 / 5), t < D) ∧
    ∀ t ∈ (sampleTimestamps D 20 (1 / 5)).tail, t ≤ D - 1 / 10 := by
  have hD : (0 : ℚ) < D := lt_trans (by norm_num) h1
  have hceil : (1 : ℤ) ≤ ⌈D / (3 / 10)⌉ :=
    Int.ceil_pos.mpr (div_pos hD (by norm_num))
  have hfc : 1 ≤ min (Int.toNat ⌈D / (3 / 10)⌉) 20 := by omega
  rw [sampleTimestamps_short_form D 20 (1 / 5) h2]
  refine ⟨?_, rfl, ?_, ?_⟩
  · simp only [List.length_cons, List.length_map, List.length_range]
    omega
  · intro t ht
    rcases List.mem_cons.mp ht with h0 | hm
    · simpa [h0] using hD
    · rcases List.mem_map.mp hm with ⟨i, _, rfl⟩
      exact lt_of_le_of_lt (min_le_right _ _) (by linarith)
  · intro t ht
    simp only [List.tail_cons] at ht
    rcases List.mem_map.mp ht with ⟨i, _, rfl⟩
    exact min_le_right _ _

/-- c1_frame_sampling_witness instantiates `c1_frame_sampling` at the
concrete duration `D = 1`. -/
theorem c1_frame_sampling_witness :
    (1 / 10 < (1 : ℚ) ∧ (1 : ℚ) ≤ 5) ∧
    ((sampleTimestamps 1 20 (1 / 5)).length = min (Int.toNat ⌈(1 : ℚ) / (3 / 10)⌉) 20 ∧
     (sampleTimestamps 1 20 (1 / 5)).head? = some 0 ∧
     (∀ t ∈ sampleTimestamps 1 20 (1 / 5), t < 1) ∧
     ∀ t ∈ (sampleTimestamps 1 20 (1 / 5)).tail, t ≤ 1 - 1 / 10) :=
  ⟨⟨by norm_num, by norm_num⟩, c1_frame_sampling 1 (by norm_num) (by norm_num)⟩

/-- c2_retry_overload_twice (C2): an operation that throws an overload
error on its first two invocations and succeeds on the third, run
through `callClaudeWithRetry` with the default parameters
`maxRetries = 3`, `initialDelay = 2000`, returns the third
invocation's success value, invokes the operation exactly three times,
and sleeps `initialDelay` and `2 * initialDelay` before the two
retries. -/
theorem c2_retry_overload_twice {α : Type} (op : Nat → Except ApiError α)
    (v : α) (e0 e1 : ApiError)
    (h0 : op 0 = Except.error e0) (h0r : isOverloaded e0 = true)
    (h1 : op 1 = Except.error e1) (h1r : isOverloaded e1 = true)
    (h2 : op 2 = Except.ok v) :
    callClaudeWithRetry op 3 2000 = ⟨Except.ok v, 3, [2000, 4000]⟩ := by
  simp [callClaudeWithRetry, callClaudeWithRetryAux, h0, h1, h2, isRetryable, h0r, h1r]

/-- c2RetryOp is a concrete operation failing with status 529 exactly
twice, then succeeding. -/
def c2RetryOp : Nat → Except ApiError Nat :=
  fun n => if n < 2 then Except.error ⟨some 529, none⟩ else Except.ok 42

/-- c2_retry_overload_twice_witness instantiates
`c2_retry_overload_twice` on `c2RetryOp`. -/
theorem c2_retry_overload_twice_witness :
    callClaudeWithRetry c2RetryOp 3 2000 = ⟨Except.ok 42, 3, [2000, 4000]⟩ :=
  c2_retry_overload_twice c2RetryOp 42 ⟨some 529, none⟩ ⟨some 529, none⟩
    rfl (by decide) rfl (by decide) rfl

/-- retryAux_step_ok: an attempt that succeeds ends the loop with one
invocation and no delay. -/
theorem retryAux_step_ok {α : Type} (op : Nat → Except ApiError α)
    (d r rc : Nat) (le : Option ApiError) (v : α) (he : op rc = Except.ok v) :
    callClaudeWithRetryAux op d (r + 1) rc le = ⟨Except.ok v, 1, []⟩ := by
  simp only [callClaudeWithRetryAux, he]

/-- retryAux_step_fail: an attempt that fails non-retryably rethrows at
once, with one invocation and no delay. -/
theorem retryAux_step_fail {α : Type} (op : Nat → Except ApiError α)
    (d r rc : Nat) (le : Option ApiError) (e : ApiError)
    (he : op rc = Except.error e) (hre : isRetryable e = false) :
    callClaudeWithRetryAux op d (r + 1) rc le = ⟨Except.error (some e), 1, []⟩ := by
  simp only [callClaudeWithRetryAux, he, hre]
  simp

/-- retryAux_step_retry: an attempt that fails retryably sleeps
`initialDelay * 2 ^ retryCount` and continues with the remaining
budget. -/
theorem retryAux_step_retry {α : Type} (op : Nat → Except ApiError α)
    (d r rc : Nat) (le : Option ApiError) (e : ApiError)
    (he : op rc = Except.error e) (hre : isRetryable e = true) :
    callClaudeWithRetryAux op d (r + 1) rc le =
      ⟨(callClaudeWithRetryAux op d r (rc + 1) (some e)).outcome,
       (callClaudeWithRetryAux op d r (rc + 1) (some e)).calls + 1,
       d * 2 ^ rc :: (callClaudeWithRetryAux op d r (rc + 1) (some e)).delays⟩ := by
  simp only [callClaudeWithRetryAux, he, hre]
  simp

/-- retryAux_calls_pos: whenever the retry loop is entered at all, the
operation is invoked at least once. -/
theorem retryAux_calls_pos {α : Type} (op : Nat → Except ApiError α)
    (d r rc : Nat) (le : Option ApiError) (hr : 1 ≤ r) :
    1 ≤ (callClaudeWithRetryAux op d r rc le).calls := by
  cases r with
  | zero => omega
  | succ r =>
    cases he : op rc with
    | ok v => rw [retryAux_step_ok op d r rc le v he]
    | error e =>
      cases hre : isRetryable e with
      | true => rw [retryAux_step_retry op d r rc le e he hre]; simp
      | false => rw [retryAux_step_fail op d r rc le e he hre]

/-- retryAux_exhaust: if every attempt in the window fails retryably,
the loop performs exactly `r` invocations and rethrows the error of
the last attempt. -/
theorem retryAux_exhaust {α : Type} (op : Nat → Except ApiError α) (d : Nat) :
    ∀ r rc le, 1 ≤ r →
      (∀ i, i < r → ∃ e, op (rc + i) = Except.error e ∧ isRetryable e = true) →
      ∃ e, op (rc + (r - 1)) = Except.error e ∧
        (callClaudeWithRetryAux op d r rc le).outcome = Except.error (some e) ∧
        (callClaudeWithRetryAux op d r rc le).calls = r := by
  intro r
  induction r with
  | zero => omega
  | succ r ih =>
    intro rc le _ hall
    obtain ⟨e0, he0, hr0⟩ := hall 0 (Nat.succ_pos r)
    rw [Nat.add_zero] at he0
    cases r with
    | zero =>
      refine ⟨e0, by simpa using he0, ?_⟩
      rw [retryAux_step_retry op d 0 rc le e0 he0 hr0]
      simp [callClaudeWithRetryAux]
    | succ r' =>
      obtain ⟨e, he, ho, hc⟩ := ih (rc + 1) (some e0) (Nat.succ_pos r')
        (fun i hi => by
          obtain ⟨e', he', hr'⟩ := hall (i + 1) (by omega)
          exact ⟨e', by rwa [show rc + 1 + i = rc + (i + 1) by omega], hr'⟩)
      refine ⟨e, by rwa [show rc + (r' + 1 + 1 - 1) = rc + 1 + (r' + 1 - 1) by omega], ?_, ?_⟩
      · rw [retryAux_step_retry op d (r' + 1) rc le e0 he0 hr0]
        exact ho
      · rw [retryAux_step_retry op d (r' + 1) rc le e0 he0 hr0]
        simpa using hc

/-- c3_retry_policy (C3): a failed attempt is retried exactly when the
error is retryable (overload, rate-limit, or status at least 500): a
non-retryable first failure is rethrown at once, with one invocation
and no delay; a retryable first failure leads to a second invocation
after an initial delay of `initialDelay`; and when every attempt fails
retryably the wrapper performs exactly `maxRetries` invocations and
rethrows the error of the last attempt verbatim. -/
theorem c3_retry_policy {α : Type} (op : Nat → Except ApiError α)
    (maxRetries initialDelay : Nat) :
    (∀ e, op 0 = Except.error e → isRetryable e = false → 1 ≤ maxRetries →
      callClaudeWithRetry op maxRetries initialDelay =
        ⟨Except.error (some e), 1, []⟩) ∧
    (∀ e, op 0 = Except.error e → isRetryable e = true → 2 ≤ maxRetries →
      2 ≤ (callClaudeWithRetry op maxRetries initialDelay).calls ∧
      (callClaudeWithRetry op maxRetries initialDelay).delays.head? =
        some initialDelay) ∧
    ((∀ i, i < maxRetries → ∃ e, op i = Except.error e ∧ isRetryable e = true) →
      1 ≤ maxRetries →
      ∃ e, op (maxRetries - 1) = Except.error e ∧
        (callClaudeWithRetry op maxRetries initialDelay).outcome =
          Except.error (some e) ∧
        (callClaudeWithRetry op maxRetries initialDelay).calls = maxRetries) := by
  refine ⟨?_, ?_, ?_⟩
  · intro e he hre hm
    obtain ⟨m, rfl⟩ : ∃ m, maxRetries = m + 1 := ⟨maxRetries - 1, by omega⟩
    exact retryAux_step_fail op initialDelay m 0 none e he hre
  · intro e he hre hm
    obtain ⟨m, rfl⟩ : ∃ m, maxRetries = m + 2 := ⟨maxRetries - 2, by omega⟩
    have hcalls := retryAux_calls_pos op initialDelay (m + 1) 1 (some e) (by omega)
    rw [show callClaudeWithRetry op (m + 2) initialDelay =
        callClaudeWithRetryAux op initialDelay (m + 2) 0 none from rfl,
      retryAux_step_retry op initialDelay (m + 1) 0 none e he hre]
    constructor
    · simpa using hcalls
    · simp
  · intro hall hm
    have := retryAux_exhaust op initialDelay maxRetries 0 none hm
      (fun i hi => by simpa using hall i hi)
    simpa [callClaudeWithRetry] using this

/-- c3OpNonRetryable is a concrete operation always failing with a
non-retryable status 400 error. -/
def c3OpNonRetryable : Nat → Except ApiError Nat :=
  fun _ => Except.error ⟨some 400, none⟩

/-- c3OpOverloaded is a concrete operation always failing with a
retryable status 529 error. -/
def c3OpOverloaded : Nat → Except ApiError Nat :=
  fun _ => Except.error ⟨some 529, none⟩

/-- c3_retry_policy_witness instantiates all three parts of
`c3_retry_policy` at concrete operations with the default parameters. -/
theorem c3_retry_policy_witness :
    callClaudeWithRetry c3OpNonRetryable 3 2000 =
      ⟨Except.error (some ⟨some 400, none⟩), 1, []⟩ ∧
    (2 ≤ (callClaudeWithRetry c3OpOverloaded 3 2000).calls ∧
     (callClaudeWithRetry c3OpOverloaded 3 2000).delays.head? = some 2000) ∧
    (∃ e, c3OpOverloaded (3 - 1) = Except.error e ∧
      (callClaudeWithRetry c3OpOverloaded 3 2000).outcome = Except.error (some e) ∧
      (callClaudeWithRetry c3OpOverloaded 3 2000).calls = 3) :=
  ⟨(c3_retry_policy c3OpNonRetryable 3 2000).1 ⟨some 400, none⟩ rfl (by decide) (by norm_num),
   (c3_retry_policy c3OpOverloaded 3 2000).2.1 ⟨some 529, none⟩ rfl (by decide) (by norm_num),
   (c3_retry_policy c3OpOverloaded 3 2000).2.2
     (fun i _ => ⟨⟨some 529, none⟩, rfl, by decide⟩) (by norm_num)⟩

/-- refineCritique is the critique text produced by the analysis call
of iteration `n` of the refinement loop (0-based), expressed directly
in terms of the injectable oracles. -/
def refineCritique (analyze improve : Nat → String → String) (h0 : String) : Nat → String
  | 0 => analyze 0 h0
  | n + 1 =>
    analyze (n + 1) (stripMdFences (improve n (refineCritique analyze improve h0 n)))

/-- refineHtmlAfter is the cleaned improved HTML generated at the end
of iteration `n` of the refinement loop. -/
def refineHtmlAfter (analyze improve : Nat → String → String) (h0 : String) (n : Nat) :
    String :=
  stripMdFences (improve n (refineCritique analyze improve h0 n))

/-- runRefineLoop_match1: loop exit when the first critique already
declares a match. -/
theorem runRefineLoop_match1 (analyze improve : Nat → String → String) (h0 : String)
    (h1 : matchPred (refineCritique analyze improve h0 0) = true) :
    runRefineLoop analyze improve h0 = ⟨h0, 0, true, 1, [10, 20, 100]⟩ := by
  simp only [refineCritique] at h1
  simp [runRefineLoop, refineGoFuel, h1]

/-- runRefineLoop_match2: loop exit when the second critique is the
first to declare a match. -/
theorem runRefineLoop_match2 (analyze improve : Nat → String → String) (h0 : String)
    (h1 : matchPred (refineCritique analyze improve h0 0) = false)
    (h2 : matchPred (refineCritique analyze improve h0 1) = true) :
    runRefineLoop analyze improve h0 =
      ⟨refineHtmlAfter analyze improve h0 0, 1, true, 2,
       [10, 20, 30, 40, 40, 50, 100]⟩ := by
  simp only [refineCritique] at h1 h2
  simp [runRefineLoop, refineGoFuel, refineHtmlAfter, refineCritique, h1, h2]

/-- runRefineLoop_match3: loop exit when only the third critique
declares a match; the loop still ran three body executions. -/
theorem runRefineLoop_match3 (analyze improve : Nat → String → String) (h0 : String)
    (h1 : matchPred (refineCritique analyze improve h0 0) = false)
    (h2 : matchPred (refineCritique analyze improve h0 1) = false)
    (h3 : matchPred (refineCritique analyze improve h0 2) = true) :
    runRefineLoop analyze improve h0 =
      ⟨refineHtmlAfter analyze improve h0 1, 2, true, 3,
       [10, 20, 30, 40, 40, 50, 60, 70, 70, 80, 100]⟩ := by
  simp only [refineCritique] at h1 h2 h3
  simp [runRefineLoop, refineGoFuel, refineHtmlAfter, refineCritique, h1, h2, h3]

/-- runRefineLoop_nomatch: loop exit at the iteration bound with no
critique declaring a match; the final HTML is the improvement
generated in the second iteration. -/
theorem runRefineLoop_nomatch (analyze improve : Nat → String → String) (h0 : String)
    (h1 : matchPred (refineCritique analyze improve h0 0) = false)
    (h2 : matchPred (refineCritique analyze improve h0 1) = false)
    (h3 : matchPred (refineCritique analyze improve h0 2) = false) :
    runRefineLoop analyze improve h0 =
      ⟨refineHtmlAfter analyze improve h0 1, 2, false, 3,
       [10, 20, 30, 40, 40, 50, 60, 70, 70, 80]⟩ := by
  simp only [refineCritique] at h1 h2 h3
  simp [runRefineLoop, refineGoFuel, refineHtmlAfter, refineCritique, h1, h2, h3]

/-- c4_refinement_loop (C4): the `/analyze-refine` refinement loop
body executes at most 3 times; it stops before that bound exactly when
the first or the second critique satisfies the match predicate; and
when no critique declares a match by the bound, the loop exits after 3
body executions, unmatched, with the second iteration's improved HTML
(the last generated version) as the final result. -/
theorem c4_refinement_loop (analyze improve : Nat → String → String) (h0 : String) :
    (runRefineLoop analyze improve h0).bodyRuns ≤ 3 ∧
    ((runRefineLoop analyze improve h0).bodyRuns < 3 ↔
      (matchPred (refineCritique analyze improve h0 0) ||
       matchPred (refineCritique analyze improve h0 1)) = true) ∧
    (matchPred (refineCritique analyze improve h0 0) = false →
     matchPred (refineCritique analyze improve h0 1) = false →
     matchPred (refineCritique analyze improve h0 2) = false →
      (runRefineLoop analyze improve h0).currentHtml =
        refineHtmlAfter analyze improve h0 1 ∧
      (runRefineLoop analyze improve h0).isMatch = false ∧
      (runRefineLoop analyze improve h0).bodyRuns = 3) := by
  cases h1 : matchPred (refineCritique analyze improve h0 0) with
  | true =>
    rw [runRefineLoop_match1 analyze improve h0 h1]
    exact ⟨by norm_num, by simp, by intro hc; simp [h1] at hc⟩
  | false =>
    cases h2 : matchPred (refineCritique analyze improve h0 1) with
    | true =>
      rw [runRefineLoop_match2 analyze improve h0 h1 h2]
      exact ⟨by norm_num, by simp, by intro _ hc; simp [h2] at hc⟩
    | false =>
      cases h3 : matchPred (refineCritique analyze improve h0 2) with
      | true =>
        rw [runRefineLoop_match3 analyze improve h0 h1 h2 h3]
        exact ⟨by norm_num, by simp, by intro _ _ hc; simp [h3] at hc⟩
      | false =>
        rw [runRefineLoop_nomatch analyze improve h0 h1 h2 h3]
        exact ⟨by norm_num, by simp, by intro _ _ _; exact ⟨rfl, rfl, rfl⟩⟩

/-- c4NoMatchAnalyze is a concrete critique oracle that never declares
a match. -/
def c4NoMatchAnalyze : Nat → String → String :=
  fun _ _ => "The layout still needs work."

/-- c4Improve is a concrete improvement oracle. -/
def c4Improve : Nat → String → String :=
  fun _ _ => "```html<div>improved</div>```"

/-- c4_refinement_loop_witness instantiates `c4_refinement_loop` at
concrete oracles that never declare a match, discharging the
no-match hypotheses by evaluation. -/
theorem c4_refinement_loop_witness :
    (runRefineLoop c4NoMatchAnalyze c4Improve "<div>v0</div>").bodyRuns ≤ 3 ∧
    ((runRefineLoop c4NoMatchAnalyze c4Improve "<div>v0</div>").currentHtml =
       refineHtmlAfter c4NoMatchAnalyze c4Improve "<div>v0</div>" 1 ∧
     (runRefineLoop c4NoMatchAnalyze c4Improve "<div>v0</div>").isMatch = false ∧
     (runRefineLoop c4NoMatchAnalyze c4Improve "<div>v0</div>").bodyRuns = 3) :=
  ⟨(c4_refinement_loop c4NoMatchAnalyze c4Improve "<div>v0</div>").1,
   (c4_refinement_loop c4NoMatchAnalyze c4Improve "<div>v0</div>").2.2
     (by decide) (by decide) (by decide)⟩

/-- c5Input is the model output considered by the post-processor
claim. -/
def c5Input : String := "<html><body><p>Hi</p></body></html>"

/-- c5_postprocessor_counterexample (C5): on the model output
`"<html><body><p>Hi</p></body></html>"` the fragment embedded into
the assembled document is not `"<p>Hi</p>"`: the `htmlMatch`
extraction matches the whole `<html>…</html>` region and the cleanup
only strips style and script tags, never the `<html>`/`<body>`
wrappers. -/
theorem c5_postprocessor_counterexample :
    (postProcessGenerate false c5Input).cleanHtml ≠ "<p>Hi</p>" ∧
    extractHtmlFragment c5Input ≠ "<p>Hi</p>" := by
  decide

/-- c5_postprocessor_amended (C5 amended): on the model output
`"<html><body><p>Hi</p></body></html>"` the extraction returns the
entire matched `<html>…</html>` string (tags included), no style or
script content is extracted, and the assembled document is the fixed
boilerplate with that full string (not a stripped body fragment)
interpolated inside the body element and no script tag in the head. -/
theorem c5_postprocessor_amended :
    (postProcessGenerate false c5Input).cleanedHtmlContent = c5Input ∧
    (postProcessGenerate false c5Input).styleContent = "" ∧
    (postProcessGenerate false c5Input).scriptContent = "" ∧
    (postProcessGenerate false c5Input).cleanHtml = c5Input ∧
    (postProcessGenerate false c5Input).completeHtml =
      completeHtmlPartA ++ "" ++ completeHtmlPartB ++ c5Input ++ completeHtmlPartC := by
  refine ⟨by decide, by decide, by decide, by decide, ?_⟩
  show completeHtmlPartA ++ _ ++ completeHtmlPartB ++ _ ++ completeHtmlPartC = _
  have hscript : extractScriptContent c5Input = "" := by decide
  have hclean : String.mk (trimChars
      (removeLazyAll "<script>".data "</script>".data
        (removeLazyAll "<style>".data "</style>".data
          (extractHtmlFragment c5Input).data))) = c5Input := by decide
  rw [hscript, hclean]
  rfl

/-- hasTagPair states that `text` contains an occurrence of the
literal `openP` followed (without overlap) by an occurrence of the
literal `closeP` — the condition under which the corresponding lazy
regex `open[\s\S]*?close` has a match. -/
def hasTagPair (openP closeP text : List Char) : Prop :=
  ∃ i < text.length + 1, ∃ j < text.length + 1,
    i + openP.length ≤ j ∧
    openP.isPrefixOf (text.drop i) = true ∧
    closeP.isPrefixOf (text.drop j) = true

instance (openP closeP text : List Char) : Decidable (hasTagPair openP closeP text) := by
  unfold hasTagPair
  infer_instance

/-- findPatIdx_spec: a found index is within the text and carries an
occurrence of the pattern. -/
theorem findPatIdx_spec (pat : List Char) :
    ∀ text j, findPatIdx pat text = some j →
      pat.isPrefixOf (text.drop j) = true ∧ j ≤ text.length := by
  intro text
  induction text with
  | nil =>
    intro j h
    simp only [findPatIdx] at h
    split at h
    · cases h
      refine ⟨?_, Nat.le_refl 0⟩
      have hp : pat = [] := by simpa [List.isEmpty_iff] using ‹pat.isEmpty = true›
      simp [hp, List.isPrefixOf]
    · cases h
  | cons c rest ih =>
    intro j h
    simp only [findPatIdx] at h
    split at h
    · cases h
      exact ⟨by assumption, Nat.zero_le _⟩
    · rw [Option.map_eq_some'] at h
      obtain ⟨j', hj', rfl⟩ := h
      obtain ⟨hpre, hle⟩ := ih j' hj'
      exact ⟨by simpa using hpre, by simpa using Nat.succ_le_succ hle⟩

/-- isPrefixOf_length_le: a boolean prefix is no longer than the
text. -/
theorem isPrefixOf_length_le (p l : List Char) (h : p.isPrefixOf l = true) :
    p.length ≤ l.length :=
  (List.isPrefixOf_iff_prefix.mp h).length_le

/-- lazyScan_pair: a successful lazy scan exhibits an occurrence of
the opening literal followed by a disjoint occurrence of the closing
literal. -/
theorem lazyScan_pair (openP closeP : List Char) :
    ∀ text p, lazyScan openP closeP text = some p →
      ∃ i, i ≤ text.length ∧ ∃ j, j ≤ text.length ∧ i + openP.length ≤ j ∧
        openP.isPrefixOf (text.drop i) = true ∧
        closeP.isPrefixOf (text.drop j) = true := by
  intro text
  induction text with
  | nil =>
    intro p h
    simp only [lazyScan] at h
    split at h
    · rw [Option.map_eq_some'] at h
      obtain ⟨j0, hj0, _⟩ := h
      obtain ⟨hpre, hle⟩ := findPatIdx_spec closeP [] j0 hj0
      have hopen : openP = [] := by
        simpa [List.isEmpty_iff] using ‹openP.isEmpty = true›
      refine ⟨0, Nat.le_refl 0, j0, hle, ?_, ?_, hpre⟩
      · simp [hopen]
      · simp [hopen, List.isPrefixOf]
    · cases h
  | cons c rest ih =>
    intro p h
    simp only [lazyScan] at h
    split at h
    · rename_i hpre
      split at h
      · rename_i j hfind
        obtain ⟨hcpre, hcle⟩ := findPatIdx_spec closeP _ _ hfind
        have hol : openP.length ≤ (c :: rest).length :=
          isPrefixOf_length_le openP (c :: rest) hpre
        refine ⟨0, Nat.zero_le _, openP.length + j, ?_, by omega, by simpa using hpre, ?_⟩
        · have := List.length_drop openP.length (c :: rest)
          omega
        · rw [List.drop_drop] at hcpre
          exact hcpre
      · rw [Option.map_eq_some'] at h
        obtain ⟨⟨i', s'⟩, hscan, _⟩ := h
        obtain ⟨i, hi, j, hj, hij, hio, hjc⟩ := ih ⟨i', s'⟩ hscan
        exact ⟨i + 1, by simpa using Nat.succ_le_succ hi, j + 1,
          by simpa using Nat.succ_le_succ hj, by omega,
          by simpa using hio, by simpa using hjc⟩
    · rw [Option.map_eq_some'] at h
      obtain ⟨⟨i', s'⟩, hscan, _⟩ := h
      obtain ⟨i, hi, j, hj, hij, hio, hjc⟩ := ih ⟨i', s'⟩ hscan
      exact ⟨i + 1, by simpa using Nat.succ_le_succ hi, j + 1,
        by simpa using Nat.succ_le_succ hj, by omega,
        by simpa using hio, by simpa using hjc⟩

/-- lazyScan_none_of_no_pair: when no opening/closing pair occurs in
the text, the lazy scan finds no match. -/
theorem lazyScan_none_of_no_pair (openP closeP text : List Char)
    (h : ¬hasTagPair openP closeP text) :
    lazyScan openP closeP text = none := by
  cases hscan : lazyScan openP closeP text with
  | none => rfl
  | some p =>
    obtain ⟨i, hi, j, hj, hij, hio, hjc⟩ := lazyScan_pair openP closeP text p hscan
    exact absurd ⟨i, by omega, j, by omega, hij, hio, hjc⟩ h

/-- c6_extraction_fallback (C6): for a model output containing no
(case-insensitive) `<html>…</html>` pair, no `<body>…</body>` pair and
no fenced ```` ```html ```` block, the extraction step returns the
entire response text unchanged (and, being a total function, it never
fails on any input). -/
theorem c6_extraction_fallback (s : String)
    (h1 : ¬hasTagPair "<html".data "</html>".data (lowerChars s.data))
    (h2 : ¬hasTagPair "<body".data "</body>".data (lowerChars s.data))
    (h3 : ¬hasTagPair "```html".data "```".data s.data) :
    extractHtmlFragment s = s := by
  have l1 : lowerChars "<html".data = "<html".data := by decide
  have l1c : lowerChars "</html>".data = "</html>".data := by decide
  have l2 : lowerChars "<body".data = "<body".data := by decide
  have l2c : lowerChars "</body>".data = "</body>".data := by decide
  have e1 : lazyMatchCI "<html" "</html>" s.data = none := by
    unfold lazyMatchCI
    rw [l1, l1c, lazyScan_none_of_no_pair _ _ _ h1]
    rfl
  have e2 : lazyMatchCI "<body" "</body>" s.data = none := by
    unfold lazyMatchCI
    rw [l2, l2c, lazyScan_none_of_no_pair _ _ _ h2]
    rfl
  have e3 : lazyMatchCS "```html" "```" s.data = none := by
    unfold lazyMatchCS
    rw [lazyScan_none_of_no_pair _ _ _ h3]
    rfl
  simp only [extractHtmlFragment, e1, e2, e3]

set_option maxRecDepth 8000 in
/-- c6_extraction_fallback_witness instantiates
`c6_extraction_fallback` on a concrete tag-free string, discharging
the no-pair hypotheses by evaluation. -/
theorem c6_extraction_fallback_witness :
    extractHtmlFragment "Sure, here is a description instead." =
      "Sure, here is a description instead." :=
  c6_extraction_fallback "Sure, here is a description instead."
    (by decide) (by decide) (by decide)

/-- c7LoopExitRecord is the `/analyze-refine` task record as the
refinement loop leaves it on the no-match path (last progress write
80, message from the third iteration, no result yet). -/
def c7LoopExitRecord : TaskRecord :=
  { status := "processing"
    progress := 80
    message := "Iteration 3: Analyzing results..."
    startTime := 1700000000000
    isVideo := false
    iterationCount := some 3
    result := none }

/-- c7Payload is a concrete result payload attached at the end of a
`/analyze-refine` pipeline. -/
def c7Payload : ResultPayload :=
  { html := "<div>v2</div>"
    zipPath := "/download/1700000000000/ui-replication.zip"
    iterationCount := 2
    isMatch := false }

/-- c7_completed_without_result (C7 counterexample): in the
program-order state sequence after the `/analyze-refine` loop the
first state — reached at lines 999-1002, before the result assignment
at line 1159 and observable across the awaited zip generation in
between — is reported by the status endpoint with status `completed`
and no result payload, refuting the claim that a task reported as
completed always carries its result. -/
theorem c7_completed_without_result :
    (analyzeRefineCompletionStates c7LoopExitRecord 2 c7Payload).head? =
      some (analyzeRefineMarkCompleted c7LoopExitRecord 2) ∧
    (taskStatusView (analyzeRefineMarkCompleted c7LoopExitRecord 2)).status =
      "completed" ∧
    (taskStatusView (analyzeRefineMarkCompleted c7LoopExitRecord 2)).result = none := by
  decide

/-- c7_result_implies_completed (C7 amended): every status-endpoint
response carrying a result payload reports status `completed` (and
progress 100) — the endpoint fixup forces it; the converse direction
of the original claim fails, per `c7_completed_without_result`. -/
theorem c7_result_implies_completed (t : TaskRecord)
    (h : (taskStatusView t).result.isSome = true) :
    (taskStatusView t).status = "completed" ∧ (taskStatusView t).progress = 100 := by
  unfold taskStatusView at h ⊢
  by_cases hr : t.result.isSome
  · simp [hr]
  · rw [if_neg hr] at h
    exact absurd h hr

/-- c7_result_implies_completed_witness instantiates
`c7_result_implies_completed` at the concrete post-assignment record
of the `/analyze-refine` pipeline. -/
theorem c7_result_implies_completed_witness :
    (taskStatusView (analyzeRefineAttachResult
        (analyzeRefineMarkCompleted c7LoopExitRecord 2) c7Payload)).status =
      "completed" ∧
    (taskStatusView (analyzeRefineAttachResult
        (analyzeRefineMarkCompleted c7LoopExitRecord 2) c7Payload)).progress = 100 :=
  c7_result_implies_completed
    (analyzeRefineAttachResult (analyzeRefineMarkCompleted c7LoopExitRecord 2) c7Payload)
    (by decide)

/-- c8_same_millisecond_id_collision (C8): two task creations whose
`Date.now()` readings fall in the same millisecond receive the same
identifier string, and the second `activeTasks.set` overwrites the
first record, leaving a single registry entry — task identifiers are
not guaranteed unique by the code, contradicting both the spec and the
code's own `Create a unique task ID` comment. -/
theorem c8_same_millisecond_id_collision :
    mkTaskId 1700000000000 = mkTaskId 1700000000000 ∧
    (tasksInsert (tasksInsert [] (mkTaskId 1700000000000)
        (initAnalyzeRefineTask false 1700000000000))
      (mkTaskId 1700000000000) (initAnalyzeRefineTask true 1700000000000)).length = 1 :=
  ⟨rfl, by decide⟩

/-- c9_progress_monotone (C9): along every execution path, the values
written to a task's `progress` field by its pipeline form a
non-decreasing sequence — for `/generate-html` for every media kind
and extracted frame count, and for `/analyze-refine` for every oracle
behaviour — so two successive polls of the same task never observe a
decrease. -/
theorem c9_progress_monotone :
    (∀ (isVideo : Bool) (n : Nat),
      List.Chain' (· ≤ ·) (generateHtmlProgressWrites isVideo n)) ∧
    (∀ (analyze improve : Nat → String → String) (h0 : String),
      List.Chain' (· ≤ ·) (analyzeRefineProgressWrites analyze improve h0)) := by
  constructor
  · intro isVideo n
    unfold generateHtmlProgressWrites
    cases isVideo with
    | false =>
      show List.Chain' (· ≤ ·) [0, 10, 80, 100]
      simp [List.chain'_cons]
    | true =>
      show List.Chain' (· ≤ ·) (if 1 < n then _ else _)
      by_cases hn : 1 < n
      · rw [if_pos hn]
        obtain ⟨m, hm⟩ : ∃ m, n - 1 = m + 1 := ⟨n - 2, by omega⟩
        have hmapne : (List.range (n - 1)).map (fun k => 40 + 20 * (k + 1) / n) ≠ [] := by
          rw [hm, List.range_succ_eq_map]
          simp
        have hb : ∀ k, k < n - 1 → 40 + 20 * (k + 1) / n ≤ 60 := by
          intro k hk
          have h1 : 20 * (k + 1) ≤ 20 * n := Nat.mul_le_mul_left 20 (by omega)
          have h2 : 20 * (k + 1) / n ≤ 20 * n / n := Nat.div_le_div_right h1
          have h3 : 20 * n / n = 20 := Nat.mul_div_cancel 20 (by omega)
          omega
        refine List.chain'_append.mpr ⟨List.chain'_append.mpr ⟨?_, ?_, ?_⟩, ?_, ?_⟩
        · simp [List.chain'_cons]
        · rw [List.chain'_map, hm, List.chain'_range_succ]
          intro k hk
          have h1 : 20 * (k + 1) ≤ 20 * (k + 1 + 1) := Nat.mul_le_mul_left 20 (by omega)
          have h2 := Nat.div_le_div_right (c := n) h1
          simpa using Nat.add_le_add_left h2 40
        · intro x hx y hy
          rw [show ([0, 10, 20, 40] : List Nat).getLast? = some 40 from rfl] at hx
          rw [hm, List.range_succ_eq_map] at hy
          simp only [List.map_cons, List.head?_cons, Option.mem_def,
            Option.some.injEq] at hx hy
          subst hx
          subst hy
          exact Nat.le_add_right 40 _
        · simp [List.chain'_cons]
        · intro x hx y hy
          simp only [List.head?_cons, Option.mem_def, Option.some.injEq] at hy
          rw [List.getLast?_append_of_ne_nil _ hmapne, hm, List.range_succ,
            List.map_append] at hx
          simp only [List.map_cons, List.map_nil, List.getLast?_concat,
            Option.mem_def, Option.some.injEq] at hx
          subst hx
          subst hy
          exact hb m (by omega)
      · rw [if_neg hn]
        simp [List.chain'_cons]
  · intro analyze improve h0
    unfold analyzeRefineProgressWrites
    cases h1 : matchPred (refineCritique analyze improve h0 0) with
    | true =>
      rw [runRefineLoop_match1 analyze improve h0 h1]
      simp [List.chain'_cons]
    | false =>
      cases h2 : matchPred (refineCritique analyze improve h0 1) with
      | true =>
        rw [runRefineLoop_match2 analyze improve h0 h1 h2]
        simp [List.chain'_cons]
      | false =>
        cases h3 : matchPred (refineCritique analyze improve h0 2) with
        | true =>
          rw [runRefineLoop_match3 analyze improve h0 h1 h2 h3]
          simp [List.chain'_cons]
        | false =>
          rw [runRefineLoop_nomatch analyze improve h0 h1 h2 h3]
          simp [List.chain'_cons]

/-- c9_progress_monotone_witness instantiates `c9_progress_monotone`
at a concrete five-frame video task and at concrete refinement
oracles. -/
theorem c9_progress_monotone_witness :
    List.Chain' (· ≤ ·) (generateHtmlProgressWrites true 5) ∧
    List.Chain' (· ≤ ·)
      (analyzeRefineProgressWrites c4NoMatchAnalyze c4Improve "<div>v0</div>") :=
  ⟨c9_progress_monotone.1 true 5,
   c9_progress_monotone.2 c4NoMatchAnalyze c4Improve "<div>v0</div>"⟩

/-- c10_estimate_guard (C10): the status endpoint reports
`estimatedRemainingSeconds = null` exactly when the stored progress is
0, and the linear extrapolation `elapsed / progress` is computed only
under the guard `progress > 0`, so the endpoint never divides by a
zero progress value. -/
theorem c10_estimate_guard :
    (∀ nowMs startTimeMs : ℚ, estimatedRemainingSeconds 0 nowMs startTimeMs = none) ∧
    (∀ (p : Nat) (nowMs startTimeMs : ℚ),
      (estimatedRemainingSeconds p nowMs startTimeMs).isSome = true → 0 < p) ∧
    (∀ (p : Nat) (nowMs startTimeMs : ℚ), 0 < p →
      estimatedRemainingSeconds p nowMs startTimeMs =
        some (jsRound (((nowMs - startTimeMs) / (p : ℚ) * 100 -
          (nowMs - startTimeMs)) / 1000))) := by
  refine ⟨fun _ _ => rfl, ?_, ?_⟩
  · intro p nowMs startTimeMs h
    by_cases hp : 0 < p
    · exact hp
    · unfold estimatedRemainingSeconds at h
      rw [if_neg hp] at h
      simp at h
  · intro p nowMs startTimeMs hp
    unfold estimatedRemainingSeconds
    rw [if_pos hp]

/-- c10_estimate_guard_witness instantiates `c10_estimate_guard` at
progress 0 and at progress 20 with concrete clock values (elapsed
4000 ms at 20 percent extrapolates to 16 remaining seconds). -/
theorem c10_estimate_guard_witness :
    estimatedRemainingSeconds 0 5000 1000 = none ∧
    0 < 20 ∧
    estimatedRemainingSeconds 20 5000 1000 =
      some (jsRound ((((5000 : ℚ) - 1000) / ((20 : Nat) : ℚ) * 100 -
        ((5000 : ℚ) - 1000)) / 1000)) :=
  ⟨c10_estimate_guard.1 5000 1000,
   c10_estimate_guard.2.1 20 5000 1000 (by decide),
   c10_estimate_guard.2.2 20 5000 1000 (by norm_num)⟩

end ReplicateUI
